import Mathlib

/-!
Verification of the patient record store (src/PatientDatabase.js).

The store is a thin wrapper over an IndexedDB object store named "patients",
created with keyPath "id" and autoIncrement. We embed:

* JS objects as association lists from field names to values; lookup takes
  the first binding, and the object-spread operation prepends the overriding
  object, so its keys shadow the older ones (observable field lookup agrees
  with JS object spread).
* The IndexedDB object store as a list of records plus the key generator
  counter. Keys are modelled as integers, the only key type this application
  produces (the store's primary key is the auto-incremented integer "id";
  a record whose "id" field is not a number is rejected as a data error by
  this model). Engine behaviour (add/put/get/getAll/delete, key generator
  bumping) follows the IndexedDB specification.
* The JS string operations the search path uses (toLowerCase, trim,
  includes, parseInt) over the ASCII fragment the records exercise.
* Promise rejection as the error side of Except; the TypeError raised by
  dereferencing the null connection handle before init() is one of the
  error kinds.
-/

/-- A JavaScript value as the store manipulates it: numbers (the record ids
and ages are integers), strings, and opaque binary blobs. -/
inductive JSValue where
  | num (n : Int)
  | str (s : String)
  | blob (bytes : List Nat)
deriving DecidableEq

/-- A JS object: an association list from field names to values. Lookup
returns the first binding for a key. -/
abbrev JSObj := List (String × JSValue)

/-- Field lookup, first binding wins. -/
def getField (o : JSObj) (k : String) : Option JSValue :=
  (o.find? (fun p => decide (p.1 = k))).map Prod.snd

/-- JS object spread: the merge of a then b, b's keys overriding, as in
the source's expressions of the form spread of patientData with createdAt
(addPatient, line 53) and spread of patient with updates (updatePatient,
line 154). The overriding bindings are prepended so first-match lookup
gives them precedence. -/
def spread (a b : JSObj) : JSObj := b ++ a

/-- Errors a store operation can reject with. -/
inductive JSError where
  /-- Property access on the null connection (this.db before init). -/
  | typeError
  /-- The explicit rejection new Error with message Patient not found
  (updatePatient, line 165). -/
  | notFoundError
  /-- IndexedDB add with a key that already exists. -/
  | constraintError
  /-- IndexedDB add/put with an invalid key. -/
  | dataError
  /-- The error kind the specification's taxonomy prescribes for an
  operation invoked before open resolved. No code path produces it; it is
  declared so that statements can compare the produced error against it. -/
  | notInitialized
deriving DecidableEq

/-- ASCII fragment of JS String.prototype.toLowerCase. -/
def jsToLower (s : String) : String := ⟨s.data.map Char.toLower⟩

/-- Drop whitespace from both ends of a character list. -/
def trimChars (cs : List Char) : List Char :=
  ((cs.dropWhile Char.isWhitespace).reverse.dropWhile Char.isWhitespace).reverse

/-- JS String.prototype.trim over the shared whitespace characters. -/
def jsTrim (s : String) : String := ⟨trimChars s.data⟩

/-- Substring containment on character lists: some suffix of the haystack
starts with the needle. -/
def charsContains (hay needle : List Char) : Bool :=
  needle.isPrefixOf hay ||
    match hay with
    | [] => false
    | _ :: t => charsContains t needle

/-- JS String.prototype.includes: substring containment. -/
def jsIncludes (hay needle : String) : Bool :=
  charsContains hay.data needle.data

/-- Value of a decimal digit character. -/
def decVal (c : Char) : Option Nat :=
  if c.isDigit then some (c.toNat - 48) else none

/-- Value of a hexadecimal digit character. -/
def hexVal (c : Char) : Option Nat :=
  if c.isDigit then some (c.toNat - 48)
  else if 'a' ≤ c && c ≤ 'f' then some (c.toNat - 87)
  else if 'A' ≤ c && c ≤ 'F' then some (c.toNat - 55)
  else none

/-- Consume leading digit characters, accumulating their value; none means
no digit was consumed (NaN). -/
def parseDigits (digVal : Char → Option Nat) (base : Nat) :
    List Char → Option Nat → Option Nat
  | [], acc => acc
  | c :: cs, acc =>
    match digVal c with
    | some d => parseDigits digVal base cs (some (acc.getD 0 * base + d))
    | none => acc

/-- JS parseInt with the radix argument omitted: skip leading whitespace,
an optional sign, a hexadecimal literal after a 0x or 0X marker, otherwise
the longest leading run of decimal digits; none models NaN. -/
def parseInt (s : String) : Option Int :=
  let cs := s.data.dropWhile Char.isWhitespace
  let signed : Int × List Char :=
    match cs with
    | '-' :: rest => (-1, rest)
    | '+' :: rest => (1, rest)
    | _ => (1, cs)
  let body : Option Nat :=
    match signed.2 with
    | '0' :: 'x' :: rest => parseDigits hexVal 16 rest none
    | '0' :: 'X' :: rest => parseDigits hexVal 16 rest none
    | rest => parseDigits decVal 10 rest none
  body.map (fun n => signed.1 * (n : Int))

/-- The IndexedDB object store "patients": the stored records and the key
generator's current number (the next auto-assigned key). -/
structure DB where
  patients : List JSObj
  nextKey : Int
deriving DecidableEq

/-- A fresh store as created by onupgradeneeded (init, lines 27-42): no
records, key generator at 1. -/
def DB.empty : DB := ⟨[], 1⟩

/-- The primary key of a record: its "id" field, when that is a number
(keyPath "id"). -/
def keyOf (o : JSObj) : Option Int :=
  match getField o "id" with
  | some (JSValue.num n) => some n
  | _ => none

/-- Whether a record with the given key is stored. -/
def DB.hasKey (db : DB) (k : Int) : Bool :=
  db.patients.any (fun p => decide (keyOf p = some k))

/-- IndexedDB add on a store with keyPath "id" and autoIncrement: if the
record carries no id, the generator assigns the next key, injects it into
the record and advances; if it carries a numeric id, that key is used (the
generator is bumped past it) and the add fails with a constraint error when
the key already exists. -/
def objectStoreAdd (db : DB) (rec : JSObj) : DB × Except JSError Int :=
  match getField rec "id" with
  | none =>
      let k := db.nextKey
      (⟨db.patients ++ [spread rec [("id", JSValue.num k)]], k + 1⟩, Except.ok k)
  | some (JSValue.num k) =>
      if db.hasKey k then (db, Except.error JSError.constraintError)
      else (⟨db.patients ++ [rec], max db.nextKey (k + 1)⟩, Except.ok k)
  | some _ => (db, Except.error JSError.dataError)

/-- IndexedDB get by key: the stored record, none when absent (the request
resolves with undefined). -/
def objectStoreGet (db : DB) (k : Int) : Option JSObj :=
  db.patients.find? (fun p => decide (keyOf p = some k))

/-- IndexedDB getAll. -/
def objectStoreGetAll (db : DB) : List JSObj :=
  db.patients

/-- IndexedDB put: stores the record under the key its "id" field yields,
overwriting an existing record with that key or appending a new one, and
bumps the generator past the key. A record without an id gets an
auto-assigned key, as in add. -/
def objectStorePut (db : DB) (rec : JSObj) : DB × Except JSError JSObj :=
  match getField rec "id" with
  | none =>
      let k := db.nextKey
      (⟨db.patients ++ [spread rec [("id", JSValue.num k)]], k + 1⟩, Except.ok rec)
  | some (JSValue.num k) =>
      if db.hasKey k then
        (⟨db.patients.map (fun p => if keyOf p = some k then rec else p),
          max db.nextKey (k + 1)⟩, Except.ok rec)
      else (⟨db.patients ++ [rec], max db.nextKey (k + 1)⟩, Except.ok rec)
  | some _ => (db, Except.error JSError.dataError)

/-- IndexedDB delete by key: removes the record when present; resolves
either way. -/
def objectStoreDelete (db : DB) (k : Int) : DB :=
  ⟨db.patients.filter (fun p => decide (keyOf p ≠ some k)), db.nextKey⟩

/-- addPatient (lines 47-70): spread the candidate with a fresh createdAt
timestamp (the store-side clock is passed in as now), then add. Resolves
with the assigned key. -/
def DB.addPatient (db : DB) (now : String) (patientData : JSObj) :
    DB × Except JSError Int :=
  let patient := spread patientData [("createdAt", JSValue.str now)]
  objectStoreAdd db patient

/-- getAllPatients (lines 73-87): resolves with every stored record. -/
def DB.getAllPatients (db : DB) : Except JSError (List JSObj) :=
  Except.ok (objectStoreGetAll db)

/-- getPatientById (lines 90-104): resolves with the get request's result,
which is undefined (none) when the id is absent. -/
def DB.getPatientById (db : DB) (id : Int) : Except JSError (Option JSObj) :=
  Except.ok (objectStoreGet db id)

/-- The id half of the search filter (lines 121-124): the term parsed as a
number equals the record's id. -/
def idMatchesB (searchId : Option Int) (p : JSObj) : Bool :=
  match searchId, getField p "id" with
  | some n, some (JSValue.num m) => decide (m = n)
  | _, _ => false

/-- One evaluation of the search filter callback (lines 120-130): id match
first; otherwise lower-case the record's name and test substring
containment, which throws a TypeError when the name is not a string. -/
def matchOne (searchId : Option Int) (lowerSearchTerm : String) (p : JSObj) :
    Except JSError Bool :=
  if idMatchesB searchId p then Except.ok true
  else
    match getField p "name" with
    | some (JSValue.str name) =>
        Except.ok (jsIncludes (jsToLower name) lowerSearchTerm)
    | _ => Except.error JSError.typeError

/-- Array.prototype.filter with a callback that can throw: the first throw
propagates, otherwise the kept elements are returned in order. -/
def filterExcept (f : JSObj → Except JSError Bool) :
    List JSObj → Except JSError (List JSObj)
  | [] => Except.ok []
  | p :: ps =>
    match f p with
    | Except.error e => Except.error e
    | Except.ok b =>
      match filterExcept f ps with
      | Except.error e => Except.error e
      | Except.ok rest => Except.ok (if b then p :: rest else rest)

/-- searchPatients (lines 107-139): getAll, lower-case and trim the term,
parse it once with parseInt, and filter. -/
def DB.searchPatients (db : DB) (searchTerm : String) :
    Except JSError (List JSObj) :=
  let patients := objectStoreGetAll db
  let lowerSearchTerm := jsTrim (jsToLower searchTerm)
  let searchId := parseInt searchTerm
  filterExcept (matchOne searchId lowerSearchTerm) patients

/-- updatePatient (lines 142-173): get by id; when present, spread the
stored record with the updates and put the merge back, resolving with it;
when absent, reject with the Patient-not-found error. The first component
is the store state after the operation. -/
def DB.updatePatient (db : DB) (id : Int) (updates : JSObj) :
    DB × Except JSError JSObj :=
  match objectStoreGet db id with
  | some patient =>
      let updatedPatient := spread patient updates
      objectStorePut db updatedPatient
  | none => (db, Except.error JSError.notFoundError)

/-- deletePatient (lines 176-190): delete by key; resolves with no value
whether or not the key was present. -/
def DB.deletePatient (db : DB) (id : Int) : DB × Except JSError Unit :=
  (objectStoreDelete db id, Except.ok ())

/-- Decidable equality for operation results, so concrete runs can be
checked by evaluation. -/
instance instDecEqExcept {ε α : Type} [DecidableEq ε] [DecidableEq α] :
    DecidableEq (Except ε α) := fun a b =>
  match a, b with
  | Except.ok x, Except.ok y =>
      if h : x = y then isTrue (by rw [h]) else isFalse (by simp [h])
  | Except.error e, Except.error f =>
      if h : e = f then isTrue (by rw [h]) else isFalse (by simp [h])
  | Except.ok _, Except.error _ => isFalse (by simp)
  | Except.error _, Except.ok _ => isFalse (by simp)

/-- The connection handle: this.db is null from the constructor (line 7)
until init resolves (line 21). -/
structure PatientDatabase where
  db : Option DB
deriving DecidableEq

/-- new PatientDatabase(): the connection is null. -/
def PatientDatabase.new : PatientDatabase := ⟨none⟩

/-- The global instance created at the bottom of the file (line 194). -/
def patientDB : PatientDatabase := PatientDatabase.new

/-- init (lines 11-44): stores the opened connection on the handle. The
engine state the connection exposes (possibly populated from an earlier
session) is a parameter. -/
def PatientDatabase.init (h : PatientDatabase) (engineState : DB) :
    PatientDatabase :=
  { h with db := some engineState }

/-- addPatient on the handle: this.db.transaction (line 49) throws a
TypeError when the connection is null, rejecting the returned promise. -/
def PatientDatabase.addPatient (h : PatientDatabase) (now : String)
    (patientData : JSObj) : PatientDatabase × Except JSError Int :=
  match h.db with
  | none => (h, Except.error JSError.typeError)
  | some db =>
      let r := DB.addPatient db now patientData
      (⟨some r.1⟩, r.2)

/-- getAllPatients on the handle (null check as in addPatient, line 75). -/
def PatientDatabase.getAllPatients (h : PatientDatabase) :
    Except JSError (List JSObj) :=
  match h.db with
  | none => Except.error JSError.typeError
  | some db => DB.getAllPatients db

/-- getPatientById on the handle (null check, line 92). -/
def PatientDatabase.getPatientById (h : PatientDatabase) (id : Int) :
    Except JSError (Option JSObj) :=
  match h.db with
  | none => Except.error JSError.typeError
  | some db => DB.getPatientById db id

/-- searchPatients on the handle (null check, line 109). -/
def PatientDatabase.searchPatients (h : PatientDatabase) (searchTerm : String) :
    Except JSError (List JSObj) :=
  match h.db with
  | none => Except.error JSError.typeError
  | some db => DB.searchPatients db searchTerm

/-- updatePatient on the handle (null check, line 144). -/
def PatientDatabase.updatePatient (h : PatientDatabase) (id : Int)
    (updates : JSObj) : PatientDatabase × Except JSError JSObj :=
  match h.db with
  | none => (h, Except.error JSError.typeError)
  | some db =>
      let r := DB.updatePatient db id updates
      (⟨some r.1⟩, r.2)

/-- deletePatient on the handle (null check, line 178). -/
def PatientDatabase.deletePatient (h : PatientDatabase) (id : Int) :
    PatientDatabase × Except JSError Unit :=
  match h.db with
  | none => (h, Except.error JSError.typeError)
  | some db =>
      let r := DB.deletePatient db id
      (⟨some r.1⟩, r.2)

/-- The specification's first search criterion, stated in its words: the
term parses to an integer (the source's numeric parse being parseInt) and
the record's id exactly equals that integer. -/
def specIdCriterion (term : String) (p : JSObj) : Prop :=
  ∃ n : Int, parseInt term = some n ∧ getField p "id" = some (JSValue.num n)

/-- The specification's second search criterion, stated in its words: the
record's name, lower-cased, contains the lower-cased trimmed term as a
substring. -/
def specNameCriterion (term : String) (p : JSObj) : Prop :=
  ∃ s : String, getField p "name" = some (JSValue.str s) ∧
    jsIncludes (jsToLower s) (jsTrim (jsToLower term)) = true

/-- One store mutation, for reasoning about operation sequences. -/
inductive Op where
  | add (now : String) (pd : JSObj)
  | upd (id : Int) (updates : JSObj)
  | del (id : Int)

/-- Apply one operation; the second component is the key the generator
assigned, for an insert whose candidate left id assignment to the store. -/
def applyOp (db : DB) : Op → DB × Option Int
  | Op.add now pd =>
      let r := DB.addPatient db now pd
      match getField pd "id" with
      | none => (r.1, r.2.toOption)
      | some _ => (r.1, none)
  | Op.upd id updates => ((DB.updatePatient db id updates).1, none)
  | Op.del id => ((DB.deletePatient db id).1, none)

/-- Run a sequence of operations, collecting the store-assigned insert
keys in order. -/
def runOps (db : DB) : List Op → DB × List Int
  | [] => (db, [])
  | o :: rest =>
      let s := applyOp db o
      let r := runOps s.1 rest
      (r.1, s.2.toList ++ r.2)

/-- A candidate record as the UI submits it (no id, no createdAt). -/
def exCand : JSObj :=
  [("name", JSValue.str "a"), ("age", JSValue.num 30),
   ("sex", JSValue.str "F"), ("notes", JSValue.str "")]

/-- A store-side timestamp. -/
def exNow : String := "2024-01-01T00:00:00.000Z"

/-- The store after inserting exCand into a fresh store. -/
def exDB1 : DB := (DB.addPatient DB.empty exNow exCand).1

/-- The record as persisted by that insert: candidate plus createdAt plus
the generated id 1. -/
def exStored : JSObj :=
  spread (spread exCand [("createdAt", JSValue.str exNow)])
    [("id", JSValue.num 1)]

/-- A partial update that smuggles in id and createdAt keys. -/
def exU : JSObj :=
  [("id", JSValue.num 999), ("createdAt", JSValue.str "bogus"),
   ("notes", JSValue.str "x")]

/-- The merge updatePatient builds from exStored and exU. -/
def exMerged : JSObj := spread exStored exU

/-- A candidate record that wrongly carries id and createdAt. -/
def exPD2 : JSObj :=
  [("id", JSValue.num 50), ("name", JSValue.str "x"), ("age", JSValue.num 20),
   ("sex", JSValue.str "M"), ("createdAt", JSValue.str "caller-time")]

/-- Another store-side timestamp. -/
def exNow2 : String := "2024-02-02T00:00:00.000Z"

/-- The store after inserting exPD2 into a fresh store: one record under
the caller's key 50, generator bumped past it. -/
def exDB2' : DB := ⟨[spread exPD2 [("createdAt", JSValue.str exNow2)]], 51⟩

/-- A stored record with id 7 and name Jon. -/
def exJon : JSObj :=
  [("id", JSValue.num 7), ("name", JSValue.str "Jon"), ("age", JSValue.num 40),
   ("sex", JSValue.str "M"), ("createdAt", JSValue.str "2024-01-01T00:00:00.000Z")]

/-- A stored record with id 8 and name 7-Eleven. -/
def exSevenEleven : JSObj :=
  [("id", JSValue.num 8), ("name", JSValue.str "7-Eleven"), ("age", JSValue.num 30),
   ("sex", JSValue.str "F"), ("createdAt", JSValue.str "2024-01-02T00:00:00.000Z")]

/-- A store holding exJon and exSevenEleven. -/
def exDB4 : DB := ⟨[exJon, exSevenEleven], 9⟩

/-- A stored record named Alice Smith. -/
def exAlice : JSObj :=
  [("id", JSValue.num 1), ("name", JSValue.str "Alice Smith"),
   ("age", JSValue.num 33), ("sex", JSValue.str "F"),
   ("createdAt", JSValue.str "2024-01-01T00:00:00.000Z")]

/-- A store holding exAlice. -/
def exDBA : DB := ⟨[exAlice], 2⟩

/-- Spread is shallow merge: a supplied key overrides, any other key falls
through to the older object. -/
theorem getField_spread (a b : JSObj) (k : String) :
    getField (spread a b) k =
      match getField b k with
      | some v => some v
      | none => getField a k := by
  unfold getField spread
  rw [List.find?_append]
  cases b.find? (fun p => decide (p.1 = k)) <;> simp [Option.or]

/-- A filter that succeeded returns a sublist of its input (each element
appears at most as often as stored). -/
theorem filterExcept_sublist {f : JSObj → Except JSError Bool} :
    ∀ {l r : List JSObj}, filterExcept f l = Except.ok r → r.Sublist l := by
  intro l
  induction l with
  | nil =>
    intro r h
    unfold filterExcept at h
    cases h
    exact List.Sublist.refl _
  | cons p ps ih =>
    intro r h
    unfold filterExcept at h
    cases hb : f p with
    | error e => rw [hb] at h; cases h
    | ok b =>
      rw [hb] at h
      cases hr : filterExcept f ps with
      | error e => rw [hr] at h; cases h
      | ok rest =>
        rw [hr] at h
        cases h
        cases b with
        | true => exact List.Sublist.cons₂ p (ih hr)
        | false => exact List.Sublist.cons p (ih hr)

/-- Membership in a succeeded filter: kept iff stored and the callback
returned true. -/
theorem filterExcept_mem {f : JSObj → Except JSError Bool} :
    ∀ {l r : List JSObj}, filterExcept f l = Except.ok r →
      ∀ p : JSObj, (p ∈ r ↔ p ∈ l ∧ f p = Except.ok true) := by
  intro l
  induction l with
  | nil =>
    intro r h p
    unfold filterExcept at h
    cases h
    simp
  | cons q ps ih =>
    intro r h p
    unfold filterExcept at h
    cases hb : f q with
    | error e => rw [hb] at h; cases h
    | ok b =>
      rw [hb] at h
      cases hr : filterExcept f ps with
      | error e => rw [hr] at h; cases h
      | ok rest =>
        rw [hr] at h
        cases h
        constructor
        · intro hmem
          cases b with
          | true =>
            rcases List.mem_cons.mp hmem with rfl | hmem'
            · exact ⟨List.mem_cons_self _ _, hb⟩
            · rcases (ih hr p).mp hmem' with ⟨h1, h2⟩
              exact ⟨List.mem_cons_of_mem _ h1, h2⟩
          | false =>
            rw [if_neg (by simp)] at hmem
            rcases (ih hr p).mp hmem with ⟨h1, h2⟩
            exact ⟨List.mem_cons_of_mem _ h1, h2⟩
        · rintro ⟨hmem, htrue⟩
          rcases List.mem_cons.mp hmem with rfl | hmem'
          · rw [hb] at htrue
            cases htrue
            simp
          · have hin := (ih hr p).mpr ⟨hmem', htrue⟩
            cases b with
            | true => exact List.mem_cons_of_mem _ hin
            | false => simpa using hin

/-- A filter whose callback accepts every stored element succeeds and
returns the store unchanged. -/
theorem filterExcept_all_true {f : JSObj → Except JSError Bool} :
    ∀ {l : List JSObj}, (∀ p ∈ l, f p = Except.ok true) →
      filterExcept f l = Except.ok l := by
  intro l
  induction l with
  | nil => intro _; rfl
  | cons p ps ih =>
    intro h
    unfold filterExcept
    rw [h p (List.mem_cons_self _ _), ih (fun q hq => h q (List.mem_cons_of_mem _ hq))]
    simp

/-- The id half of the filter matches exactly when the specification's
first criterion holds. -/
theorem idMatchesB_true_iff (term : String) (p : JSObj) :
    idMatchesB (parseInt term) p = true ↔ specIdCriterion term p := by
  unfold idMatchesB specIdCriterion
  cases hpi : parseInt term with
  | none => simp
  | some n =>
    cases hid : getField p "id" with
    | none => simp
    | some v => cases v <;> simp

/-- With no numeric term the id half of the filter rejects. -/
theorem idMatchesB_none (p : JSObj) : idMatchesB none p = false := by
  unfold idMatchesB
  cases getField p "id" with
  | none => rfl
  | some v => cases v <;> rfl

/-- Every string includes the empty string. -/
theorem jsIncludes_nil (hay : String) : jsIncludes hay "" = true := by
  unfold jsIncludes
  show charsContains hay.data [] = true
  cases hay.data <;> simp [charsContains, List.isPrefixOf]

/-- The filter callback accepts exactly when one of the specification's
two search criteria holds (given that it did not throw). -/
theorem matchOne_ok_true_iff (term : String) (p : JSObj) :
    matchOne (parseInt term) (jsTrim (jsToLower term)) p = Except.ok true ↔
      specIdCriterion term p ∨ specNameCriterion term p := by
  constructor
  · intro h
    by_cases hid : idMatchesB (parseInt term) p = true
    · exact Or.inl ((idMatchesB_true_iff term p).mp hid)
    · right
      unfold matchOne at h
      rw [if_neg hid] at h
      cases hname : getField p "name" with
      | none => rw [hname] at h; cases h
      | some v =>
        cases v with
        | num n => rw [hname] at h; cases h
        | blob bs => rw [hname] at h; cases h
        | str s =>
          rw [hname] at h
          refine ⟨s, hname, ?_⟩
          injection h with h'
  · intro h
    unfold matchOne
    rcases h with hidc | hnamec
    · rw [if_pos ((idMatchesB_true_iff term p).mpr hidc)]
    · by_cases hid : idMatchesB (parseInt term) p = true
      · rw [if_pos hid]
      · rw [if_neg hid]
        obtain ⟨s, hs, hinc⟩ := hnamec
        rw [hs]
        simp [hinc]

/-- A key absent from every stored record is absent from the store. -/
theorem objectStoreGet_eq_none (db : DB) (id : Int)
    (h : ∀ p ∈ db.patients, keyOf p ≠ some id) :
    objectStoreGet db id = none := by
  unfold objectStoreGet
  rw [List.find?_eq_none]
  intro p hp
  simp [h p hp]

/-- Lower-casing does not change a whitespace character. -/
theorem char_ws_toLower {c : Char} (h : c.isWhitespace = true) :
    c.toLower = c := by
  unfold Char.isWhitespace at h
  simp only [Bool.or_eq_true, decide_eq_true_eq] at h
  rcases h with ((h | h) | h) | h <;> subst h <;> decide

/-- A string whose trim is empty consists of whitespace only. -/
theorem trim_empty_all_ws {s : String} (h : jsTrim s = "") :
    ∀ c ∈ s.data, c.isWhitespace = true := by
  have h0 : trimChars s.data = [] := congrArg String.data h
  unfold trimChars at h0
  rw [List.reverse_eq_nil_iff, List.dropWhile_eq_nil_iff] at h0
  intro c hc
  rw [← List.takeWhile_append_dropWhile (p := Char.isWhitespace) (l := s.data)]
    at hc
  rcases List.mem_append.mp hc with hc' | hc'
  · exact List.mem_takeWhile_imp hc'
  · exact h0 c (List.mem_reverse.mpr hc')

/-- Lower-casing a whitespace-only string changes nothing. -/
theorem ws_toLower_self {s : String} (h : ∀ c ∈ s.data, c.isWhitespace = true) :
    jsToLower s = s := by
  have h2 : s.data.map Char.toLower = s.data := by
    rw [List.map_congr_left (g := fun c => c) (fun c hc => char_ws_toLower (h c hc))]
    exact List.map_id' s.data
  cases s with
  | mk data => exact congrArg String.mk h2

/-- parseInt of a whitespace-only string is NaN. -/
theorem parseInt_ws {s : String} (h : ∀ c ∈ s.data, c.isWhitespace = true) :
    parseInt s = none := by
  have h0 : s.data.dropWhile Char.isWhitespace = [] :=
    List.dropWhile_eq_nil_iff.mpr h
  simp [parseInt, h0, parseDigits]

/-- add never decreases the key generator. -/
theorem objectStoreAdd_nextKey (db : DB) (rec : JSObj) :
    db.nextKey ≤ (objectStoreAdd db rec).1.nextKey := by
  unfold objectStoreAdd
  cases getField rec "id" with
  | none => dsimp only; omega
  | some v =>
    cases v with
    | num k =>
      dsimp only
      split
      · exact le_refl _
      · exact le_max_left _ _
    | str s => exact le_refl _
    | blob bytes => exact le_refl _

/-- put never decreases the key generator. -/
theorem objectStorePut_nextKey (db : DB) (rec : JSObj) :
    db.nextKey ≤ (objectStorePut db rec).1.nextKey := by
  unfold objectStorePut
  cases getField rec "id" with
  | none => dsimp only; omega
  | some v =>
    cases v with
    | num k =>
      dsimp only
      split
      · exact le_max_left _ _
      · exact le_max_left _ _
    | str s => exact le_refl _
    | blob bytes => exact le_refl _

/-- addPatient never decreases the key generator. -/
theorem addPatient_nextKey (db : DB) (now : String) (pd : JSObj) :
    db.nextKey ≤ (DB.addPatient db now pd).1.nextKey := by
  unfold DB.addPatient
  exact objectStoreAdd_nextKey db _

/-- updatePatient never decreases the key generator. -/
theorem updatePatient_nextKey (db : DB) (id : Int) (updates : JSObj) :
    db.nextKey ≤ (DB.updatePatient db id updates).1.nextKey := by
  unfold DB.updatePatient
  cases objectStoreGet db id with
  | none => exact le_refl _
  | some patient => exact objectStorePut_nextKey db _

/-- No operation decreases the key generator. -/
theorem applyOp_nextKey (db : DB) (o : Op) :
    db.nextKey ≤ (applyOp db o).1.nextKey := by
  cases o with
  | add now pd =>
    simp only [applyOp]
    cases hpd : getField pd "id" with
    | none => exact addPatient_nextKey db now pd
    | some v => exact addPatient_nextKey db now pd
  | upd id updates => exact updatePatient_nextKey db id updates
  | del id => exact le_refl _

/-- When the candidate leaves id assignment to the store, addPatient
persists the candidate (with createdAt and the generated id) under the
generator's current key and advances the generator. -/
theorem addPatient_auto (db : DB) (now : String) (pd : JSObj)
    (h : getField pd "id" = none) :
    DB.addPatient db now pd =
      (⟨db.patients ++ [spread (spread pd [("createdAt", JSValue.str now)])
          [("id", JSValue.num db.nextKey)]], db.nextKey + 1⟩,
       Except.ok db.nextKey) := by
  have hc : getField (spread pd [("createdAt", JSValue.str now)]) "id" = none := by
    rw [getField_spread]
    exact h
  simp only [DB.addPatient, objectStoreAdd]
  rw [hc]

/-- A store-assigned insert key is the generator's current number, and the
operation advances the generator by one. -/
theorem applyOp_assigned {db : DB} {o : Op} {k : Int}
    (h : (applyOp db o).2 = some k) :
    k = db.nextKey ∧ (applyOp db o).1.nextKey = db.nextKey + 1 := by
  cases o with
  | add now pd =>
    cases hpd : getField pd "id" with
    | some v =>
      exfalso
      simp only [applyOp] at h
      rw [hpd] at h
      cases h
    | none =>
      constructor
      · simp only [applyOp] at h
        rw [hpd, addPatient_auto db now pd hpd] at h
        simp only [Except.toOption] at h
        exact (Option.some.inj h).symm
      · simp only [applyOp]
        rw [hpd, addPatient_auto db now pd hpd]
  | upd id updates => simp [applyOp] at h
  | del id => simp [applyOp] at h

/-- Over any operation sequence, the store-assigned insert keys are
strictly increasing in order and each is at least the generator's number
at the start of the sequence. -/
theorem runOps_assigned (ops : List Op) : ∀ db : DB,
    (runOps db ops).2.Pairwise (fun a b => a < b) ∧
    ∀ k ∈ (runOps db ops).2, db.nextKey ≤ k := by
  induction ops with
  | nil =>
    intro db
    refine ⟨?_, ?_⟩
    · simp [runOps]
    · intro k hk
      simp [runOps] at hk
  | cons o rest ih =>
    intro db
    have hmono := applyOp_nextKey db o
    obtain ⟨ihp, ihb⟩ := ih (applyOp db o).1
    cases hs : (applyOp db o).2 with
    | none =>
      refine ⟨?_, ?_⟩
      · simpa [runOps, hs] using ihp
      · intro k hk
        simp [runOps, hs] at hk
        exact le_trans hmono (ihb k hk)
    | some k0 =>
      obtain ⟨hk0, hnk⟩ := applyOp_assigned hs
      refine ⟨?_, ?_⟩
      · have hlist : (runOps db (o :: rest)).2 =
            k0 :: (runOps (applyOp db o).1 rest).2 := by
          simp [runOps, hs]
        rw [hlist, List.pairwise_cons]
        refine ⟨?_, ihp⟩
        intro k' hk'
        have := ihb k' hk'
        rw [hnk] at this
        omega
      · intro k hk
        simp [runOps, hs] at hk
        rcases hk with rfl | hk'
        · omega
        · exact le_trans hmono (ihb k hk')

/-- Claim C1, counterexample: for the stored record R (id 1, createdAt of
insert time) and the update U carrying id 999 and createdAt bogus,
updatePatient returns a merge whose id is 999 and whose createdAt is
bogus — the supplied id and createdAt keys are NOT excluded from
overwrite — and the put persists the merge under key 999, leaving the
store with two records. -/
theorem C1_counterexample :
    objectStoreGet exDB1 1 = some exStored ∧
    getField exStored "id" = some (JSValue.num 1) ∧
    getField exStored "createdAt" = some (JSValue.str exNow) ∧
    (DB.updatePatient exDB1 1 exU).2 = Except.ok exMerged ∧
    getField exMerged "id" = some (JSValue.num 999) ∧
    getField exMerged "createdAt" = some (JSValue.str "bogus") ∧
    (DB.updatePatient exDB1 1 exU).1.patients.length = 2 := by decide

/-- Claim C1 (amended): for every stored record R and every partial-update
object U, updatePatient(R.id, U) returns the shallow merge of U onto R in
which every key supplied in U overwrites R's value — id and createdAt
included, they are not excluded — and persists that merge under the id it
then carries. -/
theorem C1_update_merge_overwrites_all_keys (db : DB) (id : Int)
    (updates patient : JSObj)
    (hget : objectStoreGet db id = some patient)
    (n : Int)
    (hid : getField (spread patient updates) "id" = some (JSValue.num n)) :
    (DB.updatePatient db id updates).2 = Except.ok (spread patient updates) ∧
    ∀ k : String, getField (spread patient updates) k =
      match getField updates k with
      | some v => some v
      | none => getField patient k := by
  refine ⟨?_, fun k => getField_spread patient updates k⟩
  simp only [DB.updatePatient]
  rw [hget]
  simp only [objectStorePut]
  rw [hid]
  split
  · simp_all
  · split <;> rfl
  · rename_i hne heq
    exact absurd (Option.some.inj heq).symm (hne n)

/-- Claim C1 witness: the amended theorem evaluated on the stored record
exStored and the update exU. -/
theorem C1_update_merge_witness :
    (DB.updatePatient exDB1 1 exU).2 = Except.ok (spread exStored exU) :=
  (C1_update_merge_overwrites_all_keys exDB1 1 exU exStored (by decide) 999
    (by decide)).1

/-- Claim C2, counterexample: inserting a candidate that carries id 50
into a fresh store persists it under the caller's key 50, not under the
store-assigned key (the generator stood at 1); the caller-supplied
createdAt is overwritten with the store-side time, but the caller-supplied
id is not ignored. -/
theorem C2_counterexample :
    (DB.addPatient DB.empty exNow2 exPD2).2 = Except.ok 50 ∧
    DB.empty.nextKey = 1 ∧
    (50 : Int) ≠ 1 ∧
    objectStoreGet (DB.addPatient DB.empty exNow2 exPD2).1 50 =
      some (spread exPD2 [("createdAt", JSValue.str exNow2)]) ∧
    getField (spread exPD2 [("createdAt", JSValue.str exNow2)]) "createdAt" =
      some (JSValue.str exNow2) := by decide

/-- Claim C2 (amended): every successful insert persists exactly one new
record whose createdAt is the store-side time — a caller-supplied
createdAt is always overwritten — and whose id is the returned key; that
key is the store-assigned generator number when the candidate carries no
id, but a caller-supplied numeric id is used as the key instead of being
ignored. -/
theorem C2_insert_createdAt_overwritten_id_not (db : DB) (now : String)
    (pd : JSObj) (db' : DB) (k : Int)
    (h : DB.addPatient db now pd = (db', Except.ok k)) :
    ∃ rec : JSObj,
      db'.patients = db.patients ++ [rec] ∧
      getField rec "createdAt" = some (JSValue.str now) ∧
      getField rec "id" = some (JSValue.num k) ∧
      (getField pd "id" = none → k = db.nextKey) ∧
      (∀ n : Int, getField pd "id" = some (JSValue.num n) → k = n) := by
  have hc : getField (spread pd [("createdAt", JSValue.str now)]) "id"
      = getField pd "id" := by
    rw [getField_spread]
    rfl
  cases hpd : getField pd "id" with
  | none =>
    rw [addPatient_auto db now pd hpd] at h
    injection h with h1 h2
    injection h2 with h2'
    have hk : k = db.nextKey := h2'.symm
    refine ⟨spread (spread pd [("createdAt", JSValue.str now)])
        [("id", JSValue.num db.nextKey)], ?_, rfl, ?_, fun _ => hk, ?_⟩
    · rw [← h1]
    · rw [hk]
      rfl
    · intro n hn
      cases hn
  | some v =>
    simp only [DB.addPatient, objectStoreAdd] at h
    rw [hc, hpd] at h
    cases v with
    | num n =>
      dsimp only at h
      by_cases hk : db.hasKey n = true
      · rw [if_pos hk] at h
        injection h with h1 h2
        cases h2
      · rw [if_neg hk] at h
        injection h with h1 h2
        injection h2 with h2'
        have hkn : k = n := h2'.symm
        refine ⟨spread pd [("createdAt", JSValue.str now)], ?_, rfl, ?_, ?_, ?_⟩
        · rw [← h1]
        · rw [hc, hpd, hkn]
        · intro habs
          cases habs
        · intro n' hn'
          rw [hkn]
          exact JSValue.num.inj (Option.some.inj hn')
    | str s =>
      dsimp only at h
      injection h with h1 h2
      cases h2
    | blob bytes =>
      dsimp only at h
      injection h with h1 h2
      cases h2

/-- Claim C2 witness: the amended theorem evaluated on the candidate
exPD2 (which wrongly carries id 50 and a caller createdAt), inserted into
a fresh store. -/
theorem C2_insert_witness :
    ∃ rec : JSObj,
      exDB2'.patients = DB.empty.patients ++ [rec] ∧
      getField rec "createdAt" = some (JSValue.str exNow2) ∧
      getField rec "id" = some (JSValue.num 50) ∧
      (getField exPD2 "id" = none → (50 : Int) = DB.empty.nextKey) ∧
      (∀ n : Int, getField exPD2 "id" = some (JSValue.num n) → (50 : Int) = n) :=
  C2_insert_createdAt_overwritten_id_not DB.empty exNow2 exPD2 exDB2' 50
    (by decide)

/-- Claim C3, counterexample: addPatient invoked on the unopened global
handle rejects, but with the TypeError from dereferencing the null
connection (this.db.transaction), which is not the NotInitialized error
kind the claim requires. -/
theorem C3_counterexample :
    (patientDB.addPatient "2024-01-01T00:00:00.000Z" []).2 =
      Except.error JSError.typeError ∧
    JSError.typeError ≠ JSError.notInitialized := by decide

/-- Claim C3 (amended): every store operation other than init, invoked
while the handle is unopened (this.db still null), fails fast by
rejecting — it does not silently no-op — but the error is the TypeError
raised by accessing the null connection, not a dedicated NotInitialized
error. -/
theorem C3_unopened_ops_reject_with_typeError (now : String) (pd : JSObj)
    (id1 id2 id3 : Int) (term : String) (updates : JSObj) :
    (patientDB.addPatient now pd).2 = Except.error JSError.typeError ∧
    patientDB.getAllPatients = Except.error JSError.typeError ∧
    patientDB.getPatientById id1 = Except.error JSError.typeError ∧
    patientDB.searchPatients term = Except.error JSError.typeError ∧
    (patientDB.updatePatient id2 updates).2 = Except.error JSError.typeError ∧
    (patientDB.deletePatient id3).2 = Except.error JSError.typeError :=
  ⟨rfl, rfl, rfl, rfl, rfl, rfl⟩

/-- Claim C4: a search that resolved returned a sublist of the stored
records (so a record matching both criteria appears exactly once), and a
record is kept exactly when it is stored and meets the specification's id
criterion or its name-substring criterion; on the store holding records
with id 7 name Jon and id 8 name 7-Eleven, search for the term 7 returns
both records, each once. -/
theorem C4_search_union_semantics (db : DB) (term : String)
    (res : List JSObj)
    (h : DB.searchPatients db term = Except.ok res) :
    res.Sublist db.patients ∧
    (∀ p : JSObj, p ∈ res ↔
      p ∈ db.patients ∧ (specIdCriterion term p ∨ specNameCriterion term p)) ∧
    DB.searchPatients exDB4 "7" = Except.ok [exJon, exSevenEleven] := by
  have h' : filterExcept (matchOne (parseInt term) (jsTrim (jsToLower term)))
      db.patients = Except.ok res := h
  refine ⟨filterExcept_sublist h', ?_, by decide⟩
  intro p
  rw [filterExcept_mem h' p, matchOne_ok_true_iff]

/-- Claim C4 witness: the union characterization evaluated on the store
holding Jon (id 7) and 7-Eleven (id 8) with search term 7. -/
theorem C4_search_union_witness :
    [exJon, exSevenEleven].Sublist exDB4.patients ∧
    (exJon ∈ [exJon, exSevenEleven] ↔
      exJon ∈ exDB4.patients ∧
        (specIdCriterion "7" exJon ∨ specNameCriterion "7" exJon)) := by
  have h := C4_search_union_semantics exDB4 "7" [exJon, exSevenEleven]
    (by decide)
  exact ⟨h.1, h.2.1 exJon⟩

/-- Claim C5: over every operation sequence against one store — inserts
interleaved with updates and deletes — the store-assigned insert keys are
strictly increasing in insertion order (hence pairwise distinct), and a
key is never reused later, deletions notwithstanding, since the generator
never decreases. -/
theorem C5_assigned_ids_strictly_increasing (db : DB) (ops : List Op) :
    (runOps db ops).2.Pairwise (fun a b => a < b) ∧
    (runOps db ops).2.Nodup :=
  ⟨(runOps_assigned ops db).1,
   List.Pairwise.imp (fun hab => ne_of_lt hab) (runOps_assigned ops db).1⟩

/-- Claim C6: name matching is case-insensitive substring containment:
every stored record whose name is Alice Smith is returned by a search for
ALICE and by a search for lice sm. -/
theorem C6_case_insensitive_substring (db : DB) (p : JSObj)
    (res1 res2 : List JSObj)
    (hp : p ∈ db.patients)
    (hname : getField p "name" = some (JSValue.str "Alice Smith"))
    (h1 : DB.searchPatients db "ALICE" = Except.ok res1)
    (h2 : DB.searchPatients db "lice sm" = Except.ok res2) :
    p ∈ res1 ∧ p ∈ res2 := by
  have h1' : filterExcept
      (matchOne (parseInt "ALICE") (jsTrim (jsToLower "ALICE")))
      db.patients = Except.ok res1 := h1
  have h2' : filterExcept
      (matchOne (parseInt "lice sm") (jsTrim (jsToLower "lice sm")))
      db.patients = Except.ok res2 := h2
  constructor
  · exact (filterExcept_mem h1' p).mpr
      ⟨hp, (matchOne_ok_true_iff "ALICE" p).mpr
        (Or.inr ⟨"Alice Smith", hname, by decide⟩)⟩
  · exact (filterExcept_mem h2' p).mpr
      ⟨hp, (matchOne_ok_true_iff "lice sm" p).mpr
        (Or.inr ⟨"Alice Smith", hname, by decide⟩)⟩

/-- Claim C6 witness: both searches evaluated on the store holding the
record named Alice Smith. -/
theorem C6_case_insensitive_witness :
    exAlice ∈ [exAlice] ∧ exAlice ∈ [exAlice] :=
  C6_case_insensitive_substring exDBA exAlice [exAlice] [exAlice]
    (by decide) (by decide) (by decide) (by decide)

/-- Claim C7: updatePatient on an id held by no stored record rejects
with the Patient-not-found error and leaves the stored state unchanged —
no record is created or modified. -/
theorem C7_update_absent_id_not_found (db : DB) (id : Int)
    (updates : JSObj)
    (h : ∀ p ∈ db.patients, keyOf p ≠ some id) :
    DB.updatePatient db id updates = (db, Except.error JSError.notFoundError) := by
  unfold DB.updatePatient
  rw [objectStoreGet_eq_none db id h]

/-- Claim C7 witness: updating id 999 on the fresh empty store. -/
theorem C7_update_absent_witness :
    DB.updatePatient DB.empty 999 [] =
      (DB.empty, Except.error JSError.notFoundError) :=
  C7_update_absent_id_not_found DB.empty 999 []
    (by intro p hp; simp [DB.empty] at hp)

/-- Claim C8: getPatientById on an id held by no stored record resolves
with the empty result (undefined), not with an error. -/
theorem C8_getById_absent_resolves_empty (db : DB) (id : Int)
    (h : ∀ p ∈ db.patients, keyOf p ≠ some id) :
    DB.getPatientById db id = Except.ok none := by
  unfold DB.getPatientById
  rw [objectStoreGet_eq_none db id h]

/-- Claim C8 witness: getPatientById 999 on the fresh empty store. -/
theorem C8_getById_absent_witness :
    DB.getPatientById DB.empty 999 = Except.ok none :=
  C8_getById_absent_resolves_empty DB.empty 999
    (by intro p hp; simp [DB.empty] at hp)

/-- Claim C9: when the trimmed search term is empty and every stored
record's name is a string, search resolves with every stored record: the
term does not parse to an integer, and the empty lowered term is a
substring of every name. -/
theorem C9_empty_term_returns_all (db : DB) (term : String)
    (hterm : jsTrim term = "")
    (hnames : ∀ p ∈ db.patients, ∃ s : String,
      getField p "name" = some (JSValue.str s)) :
    DB.searchPatients db term = Except.ok db.patients := by
  have hws := trim_empty_all_ws hterm
  have hlow : jsToLower term = term := ws_toLower_self hws
  have hpi : parseInt term = none := parseInt_ws hws
  show filterExcept (matchOne (parseInt term) (jsTrim (jsToLower term)))
      db.patients = Except.ok db.patients
  rw [hpi, hlow, hterm]
  apply filterExcept_all_true
  intro p hp
  obtain ⟨s, hs⟩ := hnames p hp
  unfold matchOne
  rw [idMatchesB_none p]
  simp [hs, jsIncludes_nil]

/-- Claim C9 witness: a whitespace-only search on the store holding Jon
and 7-Eleven returns both records. -/
theorem C9_empty_term_witness :
    DB.searchPatients exDB4 "  " = Except.ok exDB4.patients :=
  C9_empty_term_returns_all exDB4 "  " (by decide)
    (by
      intro p hp
      simp [exDB4, exJon, exSevenEleven] at hp
      rcases hp with rfl | rfl
      · exact ⟨"Jon", rfl⟩
      · exact ⟨"7-Eleven", rfl⟩)

/-- Claim C10: the numeric half of search is a prefix parse: whenever
parseInt extracts a leading integer from the term — parseInt of 7-Eleven
is 7 and parseInt of 12abc is 12 — a resolved search includes the stored
record whose id equals that integer. -/
theorem C10_prefix_parse_id_match (db : DB) (term : String) (p : JSObj)
    (n : Int) (res : List JSObj)
    (hparse : parseInt term = some n)
    (hid : getField p "id" = some (JSValue.num n))
    (hp : p ∈ db.patients)
    (hres : DB.searchPatients db term = Except.ok res) :
    p ∈ res ∧ parseInt "7-Eleven" = some 7 ∧ parseInt "12abc" = some 12 := by
  refine ⟨?_, by decide, by decide⟩
  have h' : filterExcept (matchOne (parseInt term) (jsTrim (jsToLower term)))
      db.patients = Except.ok res := hres
  exact (filterExcept_mem h' p).mpr
    ⟨hp, (matchOne_ok_true_iff term p).mpr (Or.inl ⟨n, hparse, hid⟩)⟩

/-- Claim C10 witness: searching the term 7-Eleven on the store holding
Jon (id 7) includes Jon by the prefix-parsed id 7. -/
theorem C10_prefix_parse_witness :
    exJon ∈ [exJon, exSevenEleven] ∧
    parseInt "7-Eleven" = some 7 ∧ parseInt "12abc" = some 12 :=
  C10_prefix_parse_id_match exDB4 "7-Eleven" exJon 7 [exJon, exSevenEleven]
    (by decide) (by decide) (by decide) (by decide)
